import Mathlib

/-!
Verification development for the chandra HTML→layout→Markdown pipeline
(`src/chandra/util.py`).

Modelling conventions:
* Python strings are Lean `String` / `List Char`; Python `str.strip`,
  `str.split(" ")` and `int(str)` are re-implemented below.
* A BeautifulSoup document is modelled as its list of top-level `Div`s
  (the result of `find_all("div", recursive=False)`); the inner HTML of a
  div is a list of `Node`s.  `str(div.decode_contents())` is the serializer
  `serializeL`, and re-parsing a serialized fragment (as `extract_images`
  does) is modelled as the identity on the node tree.
* `md5` content hashing (`_hash_html`, a pure memoized function) and PIL's
  `Image.crop` (which may raise `ValueError`) are external pure operations
  and are taken as function parameters (`hash`, `crop`).
* The float expression `int(coord * (dim / bbox_scale))` is modelled by the
  exact rational value truncated toward zero, which is `Int.tdiv (coord * dim)
  scale`; Python's `int()` on a float is exactly truncation toward zero.
-/

/-- Python whitespace for `str.strip()` (the ASCII whitespace characters). -/
def isPySpace (c : Char) : Bool :=
  c == ' ' || c == '\t' || c == '\n' || c == '\r' || c.toNat == 11 || c.toNat == 12

/-- Python `str.strip()` on a character list: drop whitespace at both ends. -/
def pyStripL (l : List Char) : List Char :=
  ((l.dropWhile isPySpace).reverse.dropWhile isPySpace).reverse

/-- Python `str.strip()`. -/
def pyStrip (s : String) : String := String.mk (pyStripL s.data)

/-- Helper for the `re.search("<.+>", s)` check of `parse_html` (util.py:111):
after the first matched character of `.+`, scan for a `>` with only
non-newline characters in between. -/
def gtScan : List Char → Bool
  | [] => false
  | c :: rest => if c = '>' then true else if c = '\n' then false else gtScan rest

/-- After a `<`, the regex `.+>` needs one non-newline character and then,
possibly after further non-newline characters, a `>`. -/
def tagTail : List Char → Bool
  | [] => false
  | c :: rest => if c = '\n' then false else gtScan rest

/-- `re.search("<.+>", s) is not None`: some `<` is followed by at least one
non-newline character and then a `>` (`.` does not match a newline). -/
def hasTagL : List Char → Bool
  | [] => false
  | c :: rest => (if c = '<' then tagTail rest else false) || hasTagL rest

/-- The tag test `parse_html` applies to a text block's inner HTML. -/
def hasTag (s : String) : Bool := hasTagL s.data

/-- An HTML node as manipulated by the pipeline: a text node, an `<img>`
element (void, attribute list), or any other element with children. -/
inductive Node where
  | text : String → Node
  | img : List (String × String) → Node
  | elem : String → List (String × String) → List Node → Node

/-- Entity escaping BeautifulSoup applies to text nodes when serializing. -/
def escChar (c : Char) : List Char :=
  if c = '&' then "&amp;".data
  else if c = '<' then "&lt;".data
  else if c = '>' then "&gt;".data
  else [c]

/-- Serialize an attribute list, `key="value"` pairs preceded by spaces. -/
def serializeAttrs (attrs : List (String × String)) : String :=
  attrs.foldr (fun p acc => " " ++ p.1 ++ "=\x22" ++ p.2 ++ "\x22" ++ acc) ""

/-- `str(div.decode_contents())`: serialize a node list back to an HTML
fragment string. -/
def serializeL : List Node → String
  | [] => ""
  | .text s :: rest => String.mk ((s.data.map escChar).flatten) ++ serializeL rest
  | .img attrs :: rest => "<img" ++ serializeAttrs attrs ++ "/>" ++ serializeL rest
  | .elem t a ch :: rest =>
    "<" ++ t ++ serializeAttrs a ++ ">" ++ serializeL ch ++ "</" ++ t ++ ">" ++ serializeL rest

/-- Digits-to-number accumulator for the integer parsers. -/
def natFromDigits (l : List Char) : ℕ := l.foldl (fun acc c => acc * 10 + (c.toNat - 48)) 0

/-- The integer part of a JSON number: a single `0`, or a nonzero digit
followed by further digits (JSON rejects other leading zeros); returns the
digits and the remainder. -/
def jsonIntPart : List Char → Option (List Char × List Char)
  | [] => none
  | c :: rest =>
    if c = '0' then some ([c], rest)
    else if c.isDigit then some (c :: rest.takeWhile Char.isDigit, rest.dropWhile Char.isDigit)
    else none

/-- The optional fraction part `.digits` of a JSON number; a `.` not followed
by a digit is not part of the number token and stays in the remainder. -/
def jsonFracPart (l : List Char) : List Char × List Char :=
  match l with
  | '.' :: rest =>
    let ds := rest.takeWhile Char.isDigit
    if ds.isEmpty then ([], l) else (ds, rest.dropWhile Char.isDigit)
  | _ => ([], l)

/-- The optional exponent part `[eE][+-]?digits` of a JSON number; an `e`/`E`
not followed by a well-formed exponent stays in the remainder. -/
def jsonExpPart (l : List Char) : ℤ × List Char :=
  match l with
  | c :: rest =>
    if c = 'e' || c = 'E' then
      match rest with
      | s :: rest2 =>
        if s = '-' then
          let ds := rest2.takeWhile Char.isDigit
          if ds.isEmpty then (0, l) else (-(natFromDigits ds : ℤ), rest2.dropWhile Char.isDigit)
        else if s = '+' then
          let ds := rest2.takeWhile Char.isDigit
          if ds.isEmpty then (0, l) else ((natFromDigits ds : ℤ), rest2.dropWhile Char.isDigit)
        else
          let ds := rest.takeWhile Char.isDigit
          if ds.isEmpty then (0, l) else ((natFromDigits ds : ℤ), rest.dropWhile Char.isDigit)
      | [] => (0, l)
    else (0, l)
  | [] => (0, l)

/-- The value of a JSON number `±intDs.fracDs × 10^e`, truncated toward zero
as the int-cast of util.py:255 does: the magnitude is shifted by the exponent
minus the fraction length and floor-divided, then the sign is applied. -/
def jsonNumValue (neg : Bool) (intDs fracDs : List Char) (e : ℤ) : ℤ :=
  let M : ℕ := natFromDigits (intDs ++ fracDs)
  let shift : ℤ := e - fracDs.length
  let mag : ℕ := if 0 ≤ shift then M * 10 ^ shift.toNat else M / 10 ^ (-shift).toNat
  if neg then -(mag : ℤ) else (mag : ℤ)

/-- One JSON number token (optional minus sign, integer part, optional
fraction and exponent), already truncated toward zero; returns the value and
the remainder of the input. -/
def parseJsonNum (l : List Char) : Option (ℤ × List Char) :=
  match l with
  | '-' :: r =>
    match jsonIntPart r with
    | none => none
    | some (ids, r1) =>
      let fr := jsonFracPart r1
      let ex := jsonExpPart fr.2
      some (jsonNumValue true ids fr.1 ex.1, ex.2)
  | _ =>
    match jsonIntPart l with
    | none => none
    | some (ids, r1) =>
      let fr := jsonFracPart r1
      let ex := jsonExpPart fr.2
      some (jsonNumValue false ids fr.1 ex.1, ex.2)

/-- JSON insignificant whitespace. -/
def skipWs (l : List Char) : List Char :=
  l.dropWhile (fun c => c == ' ' || c == '\t' || c == '\n' || c == '\r')

/-- Comma-separated JSON numbers up to the closing bracket, requiring the end
of input right after it; the fuel argument only bounds the recursion. -/
def parseItems : ℕ → List Char → Option (List ℤ)
  | 0, _ => none
  | fuel+1, l =>
    match parseJsonNum l with
    | none => none
    | some (n, rest) =>
      match skipWs rest with
      | ']' :: tail => if (skipWs tail).isEmpty then some [n] else none
      | ',' :: tail =>
        match parseItems fuel (skipWs tail) with
        | some ns => some (n :: ns)
        | none => none
      | _ => none

/-- Models `json.loads(bbox_raw)` followed by the int-cast of util.py:255 for
the inputs `parse_layout` keeps from it: a JSON array of numbers parsed from
the whole string, each number truncated toward zero (Python floats are
modelled by their exact values; arrays whose elements are not plain numbers,
or whose floats overflow or round across an integer, are outside the faithful
domain — the C5 theorem therefore scopes away from `[`-headed attributes
altogether).  Every non-array JSON document is a non-list value or a parse
error, so on those the program provably falls through to the space-separated
parse, which this model mirrors by returning `none` whenever the first
non-whitespace character is not `[`. -/
def jsonNumList (s : String) : Option (List ℤ) :=
  match skipWs s.data with
  | '[' :: rest =>
    match skipWs rest with
    | ']' :: tail => if (skipWs tail).isEmpty then some [] else none
    | r => parseItems (r.length + 1) r
  | _ => none

/-- Underscore-separated digit groups after the first digit of a Python
integer literal: each underscore must be followed by a digit, every other
character must be a digit (so `1_0` is accepted, `1__0`, `1_` are not). -/
def pyUnderscoreDigits : List Char → Bool
  | [] => true
  | '_' :: c :: rest => c.isDigit && pyUnderscoreDigits rest
  | c :: rest => c.isDigit && pyUnderscoreDigits rest

/-- Python `int(str)` on ASCII input: optional surrounding whitespace,
optional sign, then decimal digits with optional single underscores between
digit groups; `none` models the `ValueError` that `parse_layout` catches. -/
def parsePyInt (s : String) : Option ℤ :=
  match pyStripL s.data with
  | [] => none
  | c :: rest =>
    let digits := if c = '-' || c = '+' then rest else c :: rest
    let sign : ℤ := if c = '-' then -1 else 1
    match digits with
    | [] => none
    | d :: ds =>
      if d.isDigit && pyUnderscoreDigits ds then
        some (sign * natFromDigits (digits.filter (fun x => x ≠ '_')))
      else none

/-- Python `s.split(" ")`: split at every single space, keeping empty pieces. -/
def splitSpaceL : List Char → List (List Char)
  | [] => [[]]
  | c :: rest =>
    let r := splitSpaceL rest
    if c = ' ' then [] :: r
    else
      match r with
      | [] => [[c]]
      | h :: t => (c :: h) :: t

/-- The space-separated fallback of `parse_layout` (util.py:246-253): split on
single spaces; on exactly 4 parts convert each with `int`, a conversion error
being caught; otherwise keep the default box. -/
def spaceParse (s : String) : List ℤ :=
  let parts := (splitSpaceL s.data).map String.mk
  if parts.length = 4 then
    match parts.mapM parsePyInt with
    | some l => l
    | none => [0, 0, 1, 1]
  else [0, 0, 1, 1]

/-- The bbox-attribute parsing policy of `parse_layout` (util.py:233-253):
missing or falsy attribute keeps the default `[0,0,1,1]`; then a JSON-array
parse is attempted, a non-4-element result raising the `ValueError` that joins
the `json.JSONDecodeError` path into the space-separated fallback. -/
def parseBboxAttr : Option String → List ℤ
  | none => [0, 0, 1, 1]
  | some s =>
    if s = "" then [0, 0, 1, 1]
    else
      match jsonNumList s with
      | some l => if l.length = 4 then l else spaceParse s
      | none => spaceParse s

/-- `int(coord * (dim / bbox_scale))` from util.py:258-261, modelled exactly:
`Int.tdiv` truncates the rational `coord*dim/scale` toward zero, as Python's
`int()` does on the float value. -/
def scale_coord (v dim scale : ℤ) : ℤ := Int.tdiv (v * dim) scale

/-- Bbox normalization of `parse_layout` (util.py:255-262): scale x by
`width/bbox_scale` and y by `height/bbox_scale`, clamp the first corner below
at 0 and cap the second corner at width/height. -/
def normalizeBbox (w h scale : ℤ) (b : List ℤ) : List ℤ :=
  [max 0 (scale_coord (b.getD 0 0) w scale),
   max 0 (scale_coord (b.getD 1 0) h scale),
   min (scale_coord (b.getD 2 0) w scale) w,
   min (scale_coord (b.getD 3 0) h scale) h]

/-- A top-level annotated div: `data-label` attribute, `data-bbox` attribute,
and parsed inner HTML.  (Named `HtmlDiv` because `Div` is taken in Lean.) -/
structure HtmlDiv where
  label : Option String
  bboxAttr : Option String
  children : List Node

/-- The `LayoutBlock` dataclass (util.py:217-221): exactly a bbox, a label and
the raw inner content.  The content string `str(div.decode_contents())` is
modelled by the node tree it serializes from. -/
structure LayoutBlock where
  bbox : List ℤ
  label : String
  content : List Node

/-- One iteration of the `parse_layout` loop (util.py:232-265). -/
def blockOfDiv (w h scale : ℤ) (d : HtmlDiv) : LayoutBlock :=
  { bbox := normalizeBbox w h scale (parseBboxAttr d.bboxAttr)
    label := d.label.getD "block"
    content := d.children }

/-- `parse_layout` (util.py:224-266) over the top-level divs of the document,
with the bitmap's pixel size `w × h` and the configured `bbox_scale`. -/
def parse_layout (divs : List HtmlDiv) (w h scale : ℤ) : List LayoutBlock :=
  divs.map (blockOfDiv w h scale)

/-- `get_image_name` (util.py:23-25); `hash` models the pure memoized
`_hash_html` md5 digest. -/
def get_image_name (hash : String → String) (html : String) (div_idx : ℕ) : String :=
  hash html ++ "_" ++ toString div_idx ++ "_img.webp"

/-- BeautifulSoup attribute assignment `img["src"] = v`: replace the value of
an existing key in place, or append the attribute. -/
def setAttr (k v : String) : List (String × String) → List (String × String)
  | [] => [(k, v)]
  | (k', v') :: rest => if k' = k then (k, v) :: rest else (k', v') :: setAttr k v rest

/-- `soup.find("img")`: the attribute list of the first `<img>` descendant in
document (depth-first, pre-) order, or `none`. -/
def findImgL : List Node → Option (List (String × String))
  | [] => none
  | .text _ :: rest => findImgL rest
  | .img attrs :: _ => some attrs
  | .elem _ _ ch :: rest =>
    match findImgL ch with
    | some a => some a
    | none => findImgL rest

/-- Overwrite the `src` attribute of the first `<img>` descendant (the
`img["src"] = img_src` branch of util.py:103-105). -/
def setImgSrcL (src : String) : List Node → List Node
  | [] => []
  | .text s :: rest => .text s :: setImgSrcL src rest
  | .img attrs :: rest => .img (setAttr "src" src attrs) :: rest
  | .elem t a ch :: rest =>
    match findImgL ch with
    | some _ => .elem t a (setImgSrcL src ch) :: rest
    | none => .elem t a ch :: setImgSrcL src rest

/-- The image-block rewrite of `parse_html` (util.py:98-108): rewrite the
first `<img>`'s src if one exists, otherwise append `<img src='…'/>`. -/
def rewriteImageChildren (src : String) (ch : List Node) : List Node :=
  match findImgL ch with
  | some _ => setImgSrcL src ch
  | none => ch ++ [.img [("src", src)]]

/-- Attribute lookup, `el["k"]` for a present attribute / `None` otherwise. -/
def lookupAttr (attrs : List (String × String)) (k : String) : Option String :=
  (attrs.find? (fun p => p.1 == k)).map (fun p => p.2)

/-- The `src` of the first `<img>` descendant, if any. -/
def firstImgSrc (ch : List Node) : Option String :=
  match findImgL ch with
  | some attrs => lookupAttr attrs "src"
  | none => none

/-- `label in [a, b]` for the optional `data-label`; `None` is in no list. -/
def labelIn2 (label : Option String) (a b : String) : Bool :=
  match label with
  | some l => l == a || l == b
  | none => false

/-- The body of the `parse_html` loop (util.py:86-121) for the div at 1-based
position `div_idx`: `none` when the div is skipped, otherwise the (possibly
rewritten) inner HTML appended to the output. -/
def processDiv (hash : String → String) (html : String) (ihf iim : Bool)
    (div_idx : ℕ) (d : HtmlDiv) : Option String :=
  if !ihf && labelIn2 d.label "Page-Header" "Page-Footer" then none
  else if !iim && labelIn2 d.label "Image" "Figure" then none
  else
    let children :=
      if labelIn2 d.label "Image" "Figure" then
        rewriteImageChildren (get_image_name hash html div_idx) d.children
      else d.children
    if d.label == some "Text" && !(hasTag (pyStrip (serializeL children))) then
      some ("<p>" ++ pyStrip (serializeL children) ++ "</p>")
    else some (serializeL children)

/-- The `parse_html` loop with its running 1-based `div_idx` counter. -/
def parse_html_go (hash : String → String) (html : String) (ihf iim : Bool) :
    ℕ → List HtmlDiv → String
  | _, [] => ""
  | idx, d :: rest =>
    (processDiv hash html ihf iim (idx + 1) d).getD "" ++
      parse_html_go hash html ihf iim (idx + 1) rest

/-- `parse_html` (util.py:78-122): filter and rewrite the top-level divs and
concatenate their inner HTML in document order. -/
def parse_html (hash : String → String) (html : String) (divs : List HtmlDiv)
    (ihf iim : Bool) : String :=
  parse_html_go hash html ihf iim 0 divs

/-- The `extract_images` loop (util.py:31-74) with its running `div_idx`
counter, which is incremented for every chunk before the label test.  `crop`
models `image.crop(bbox)`, returning `none` for the `ValueError` that the
function catches and skips. -/
def extract_images_go {Img : Type} (hash : String → String) (crop : List ℤ → Option Img)
    (html : String) : ℕ → List LayoutBlock → List (String × Img)
  | _, [] => []
  | div_idx, c :: rest =>
    (if c.label == "Image" || c.label == "Figure" then
      match findImgL c.content with
      | none => []
      | some _ =>
        match crop c.bbox with
        | none => []
        | some im => [(get_image_name hash html (div_idx + 1), im)]
    else []) ++ extract_images_go hash crop html (div_idx + 1) rest

/-- `extract_images` (util.py:28-75): for every chunk labeled Image/Figure
whose content holds an `<img>` tag, crop the bitmap at the chunk's bbox and
key it by `get_image_name(html, div_idx)`; the insertion-ordered dict is
modelled as an association list. -/
def extract_images {Img : Type} (hash : String → String) (crop : List ℤ → Option Img)
    (html : String) (chunks : List LayoutBlock) : List (String × Img) :=
  extract_images_go hash crop html 0 chunks

/-- The inline math delimiters `parse_markdown` configures (util.py:206). -/
def chandra_inline_math_delims : String × String := ("$", "$")

/-- The block math delimiters `parse_markdown` configures (util.py:207). -/
def chandra_block_math_delims : String × String := ("$$", "$$")

/-- `Markdownify.convert_math` (util.py:136-153): the element is block-level
when it has a `display` attribute equal to `"block"`; the trimmed text is
wrapped in block delimiters with surrounding newlines, or inline delimiters
with surrounding spaces. -/
def convert_math (inl blk : String × String) (attrs : List (String × String))
    (text : String) : String :=
  if lookupAttr attrs "display" == some "block" then
    "\n" ++ blk.1 ++ pyStrip text ++ blk.2 ++ "\n"
  else
    " " ++ inl.1 ++ pyStrip text ++ inl.2 ++ " "

/-- `parse_markdown` (util.py:192-214): rewrite the HTML, convert it with the
configured `Markdownify` instance — the markdownify conversion is the external
`convert` parameter, whose `Except.error` models a raised exception, caught
and replaced by the empty string — and strip the result. -/
def parse_markdown (convert : String → Except String String) (hash : String → String)
    (html : String) (divs : List HtmlDiv) (ihf iim : Bool) : String :=
  let fragment := parse_html hash html divs ihf iim
  let markdown :=
    match convert fragment with
    | .ok m => m
    | .error _ => ""
  pyStrip markdown

/-- Modelled from the spec: the generic HTML→Markdown tree walk of the
Markdown Converter's base class (the markdownify library, which is not part
of src/) on a lone paragraph fragment — `<p>X</p>` with plain text `X`
converts to `X` surrounded by blank lines, so that the final trim yields the
Markdown text `X` with no literal tags. -/
def md_convert_base (s : String) : Except String String :=
  let l := s.data
  if ("<p>".data).isPrefixOf l && ("</p>".data).isSuffixOf l then
    .ok ("\n\n" ++ String.mk ((l.drop 3).take (l.length - 7)) ++ "\n\n")
  else .error "fragment shape not modelled"

/-- Concatenation of a list of strings, in order. -/
def concatStr : List String → String
  | [] => ""
  | s :: rest => s ++ concatStr rest

theorem pyStripL_eq_rdropWhile (l : List Char) :
    pyStripL l = List.rdropWhile isPySpace (List.dropWhile isPySpace l) := rfl

theorem dropWhile_pyStripL (l : List Char) :
    (pyStripL l).dropWhile isPySpace = pyStripL l := by
  rw [pyStripL_eq_rdropWhile, List.dropWhile_eq_self_iff]
  intro hl
  have hpre : List.rdropWhile isPySpace (List.dropWhile isPySpace l) <+:
      List.dropWhile isPySpace l := List.rdropWhile_prefix _ _
  have hlen : 0 < (List.dropWhile isPySpace l).length :=
    lt_of_lt_of_le hl hpre.length_le
  have h0 := List.dropWhile_get_zero_not isPySpace l hlen
  simpa [List.get_eq_getElem, hpre.getElem hl] using h0

theorem pyStripL_idem (l : List Char) : pyStripL (pyStripL l) = pyStripL l := by
  rw [pyStripL_eq_rdropWhile (pyStripL l), dropWhile_pyStripL,
    pyStripL_eq_rdropWhile l, List.rdropWhile_idempotent]

theorem pyStrip_idem (s : String) : pyStrip (pyStrip s) = pyStrip s := by
  simp [pyStrip, pyStripL_idem]

theorem lookupAttr_setAttr (v : String) (attrs : List (String × String)) :
    lookupAttr (setAttr "src" v attrs) "src" = some v := by
  induction attrs with
  | nil => simp [setAttr, lookupAttr]
  | cons p rest ih =>
    by_cases h : p.1 = "src"
    · simp [setAttr, lookupAttr, h]
    · simpa [setAttr, lookupAttr, List.find?, h] using ih

theorem findImgL_append (l₁ l₂ : List Node) :
    findImgL (l₁ ++ l₂) =
      match findImgL l₁ with
      | some a => some a
      | none => findImgL l₂ := by
  induction l₁ using findImgL.induct with
  | case1 => simp [findImgL]
  | case2 s rest ih => simpa [findImgL] using ih
  | case3 attrs rest => simp [findImgL]
  | case4 t a ch rest w hw ih => simp [findImgL, hw]
  | case5 t a ch rest hw ihch ih => simpa [findImgL, hw] using ih

theorem findImg_setImgSrcL (src : String) :
    ∀ l a, findImgL l = some a →
      findImgL (setImgSrcL src l) = some (setAttr "src" src a) := by
  intro l
  induction l using setImgSrcL.induct src with
  | case1 => simp [findImgL]
  | case2 s rest ih =>
    intro a h
    simpa [findImgL, setImgSrcL] using ih a (by simpa [findImgL] using h)
  | case3 attrs rest =>
    intro a h
    simp [findImgL] at h
    simp [findImgL, setImgSrcL, h]
  | case4 t at_ ch rest w hw ih =>
    intro a h
    simp [findImgL, hw] at h
    subst h
    simp [findImgL, setImgSrcL, hw, ih w hw]
  | case5 t at_ ch rest hw ih =>
    intro a h
    simp [findImgL, hw] at h
    simpa [findImgL, setImgSrcL, hw] using ih a h

theorem firstImgSrc_rewrite (src : String) (ch : List Node) :
    firstImgSrc (rewriteImageChildren src ch) = some src := by
  cases h : findImgL ch with
  | none =>
    simp [rewriteImageChildren, h, firstImgSrc, findImgL_append, findImgL, lookupAttr]
  | some attrs =>
    simp [rewriteImageChildren, h, firstImgSrc, findImg_setImgSrcL src ch attrs h,
      lookupAttr_setAttr]

theorem parse_layout_getElem? (divs : List HtmlDiv) (w h scale : ℤ) (i : ℕ) :
    (parse_layout divs w h scale)[i]? = divs[i]?.map (blockOfDiv w h scale) := by
  simp [parse_layout]

theorem extract_images_go_mem {Img : Type} (hash : String → String)
    (crop : List ℤ → Option Img) (html : String) :
    ∀ (chunks : List LayoutBlock) (n i : ℕ) (c : LayoutBlock) (im : Img),
      chunks[i]? = some c →
      (c.label = "Image" ∨ c.label = "Figure") →
      (findImgL c.content).isSome →
      crop c.bbox = some im →
      (get_image_name hash html (n + i + 1), im) ∈
        extract_images_go hash crop html n chunks := by
  intro chunks
  induction chunks with
  | nil => intro n i c im hget; simp at hget
  | cons hd tl ih =>
    intro n i c im hget hlab himg hcrop
    match i with
    | 0 =>
      simp only [List.getElem?_cons_zero, Option.some.injEq] at hget
      subst hget
      obtain ⟨attrs, hattrs⟩ := Option.isSome_iff_exists.mp himg
      have hblab : (hd.label == "Image" || hd.label == "Figure") = true := by
        rcases hlab with h | h <;> simp [h]
      simp [extract_images_go, hblab, hattrs, hcrop]
    | j + 1 =>
      simp only [List.getElem?_cons_succ] at hget
      have hmem := ih (n + 1) j c im hget hlab himg hcrop
      have harith : n + 1 + j + 1 = n + (j + 1) + 1 := by omega
      rw [harith] at hmem
      exact List.mem_append_right _ hmem

theorem parse_html_go_enumFrom (hash : String → String) (html : String) (ihf iim : Bool) :
    ∀ (divs : List HtmlDiv) (n : ℕ),
      parse_html_go hash html ihf iim n divs =
        concatStr ((divs.enumFrom n).map
          (fun p => (processDiv hash html ihf iim (p.1 + 1) p.2).getD "")) := by
  intro divs
  induction divs with
  | nil => intro n; rfl
  | cons d rest ih => intro n; simp [parse_html_go, List.enumFrom, concatStr, ih]

/-- C2: with a 1000×2000 bitmap and BBOX_SCALE = 1000, `parse_layout` maps the
raw bbox [100, 100, 900, 900] to [100, 200, 900, 1800]: each x coordinate is
scaled by width/BBOX_SCALE, each y coordinate by height/BBOX_SCALE, the first
corner is clamped below at 0 and the second corner capped at width/height. -/
theorem bbox_normalization_example :
    normalizeBbox 1000 2000 1000 [100, 100, 900, 900] = [100, 200, 900, 1800] ∧
    (parse_layout [⟨none, some "[100, 100, 900, 900]", []⟩] 1000 2000 1000).map
        (fun b => b.bbox) = [[100, 200, 900, 1800]] := by
  constructor <;> decide

/-- C4 counterexample: with bitmap 1000×2000 and BBOX_SCALE = 1000 the valid
JSON bbox string "[100, 100, 900, 900]" normalizes to [100, 200, 900, 1800],
but normalizing that result again with the same bitmap size rescales it to
[100, 400, 900, 2000]; re-normalization is not idempotent. -/
theorem bbox_renormalization_not_idempotent_cex :
    normalizeBbox 1000 2000 1000 (parseBboxAttr (some "[100, 100, 900, 900]")) =
      [100, 200, 900, 1800] ∧
    normalizeBbox 1000 2000 1000
        (normalizeBbox 1000 2000 1000 (parseBboxAttr (some "[100, 100, 900, 900]"))) =
      [100, 400, 900, 2000] ∧
    normalizeBbox 1000 2000 1000
        (normalizeBbox 1000 2000 1000 (parseBboxAttr (some "[100, 100, 900, 900]"))) ≠
      normalizeBbox 1000 2000 1000 (parseBboxAttr (some "[100, 100, 900, 900]")) := by
  refine ⟨by decide, by decide, by decide⟩

/-- C4 amended: bbox normalization is a pure function of the attribute string
and the bitmap size, and re-normalizing with the same bitmap size yields the
same bbox exactly in the identity-scaling case, when both bitmap dimensions
equal BBOX_SCALE; for other bitmap sizes re-normalization rescales again (see
the counterexample). -/
theorem bbox_normalization_idempotent_identity_scaling (s : ℤ) (hs : s ≠ 0)
    (raw : Option String) :
    normalizeBbox s s s (normalizeBbox s s s (parseBboxAttr raw)) =
      normalizeBbox s s s (parseBboxAttr raw) := by
  generalize parseBboxAttr raw = b
  have cancel : ∀ x : ℤ, Int.tdiv (x * s) s = x := fun x => Int.mul_tdiv_cancel x hs
  simp only [normalizeBbox, scale_coord, List.getD_cons_zero, List.getD_cons_succ, cancel,
    List.cons.injEq, and_true]
  refine ⟨by omega, by omega, by omega, by omega⟩

/-- C4 witness for the amended statement, at BBOX_SCALE = bitmap size = 1000. -/
theorem bbox_normalization_idempotent_identity_scaling_witness :
    normalizeBbox 1000 1000 1000
        (normalizeBbox 1000 1000 1000 (parseBboxAttr (some "[5, 5, 7, 7]"))) =
      normalizeBbox 1000 1000 1000 (parseBboxAttr (some "[5, 5, 7, 7]")) :=
  bbox_normalization_idempotent_identity_scaling 1000 (by decide) (some "[5, 5, 7, 7]")

/-- C5 counterexample: for the malformed bbox "abc" and a 1000×2000 bitmap
with BBOX_SCALE = 1000, the block produced by `parse_layout` carries the
normalized default box [0, 0, 1, 2], not the raw default [0, 0, 1, 1] the
claim states. -/
theorem malformed_bbox_not_raw_default_cex :
    (parse_layout [⟨none, some "abc", []⟩] 1000 2000 1000).map (fun b => b.bbox) =
      [[0, 0, 1, 2]] ∧
    (parse_layout [⟨none, some "abc", []⟩] 1000 2000 1000).map (fun b => b.bbox) ≠
      [[0, 0, 1, 1]] := by
  constructor <;> decide

/-- C5 amended: a malformed bbox attribute — one that is not a JSON array
(its first non-whitespace character is not `[`, so `json.loads` returns a
non-list value or raises, and either way the code falls through to the
space-separated parse of util.py:244-253) and whose space-separated parse
does not yield four integers (wrong token count, or a token that `int()`
rejects with the caught ValueError — or tokens spelling the default box
itself) — falls back to the default box [0, 0, 1, 1] at the parse stage
without raising; the block is still produced, with the normalization of
[0, 0, 1, 1] as its bbox (equal to [0, 0, 1, 1] exactly under identity
scaling, e.g. bitmap size = BBOX_SCALE), and processing of the remaining
blocks continues.  Scoped to ASCII attribute values, since Python's `int()`
also accepts non-ASCII digits that the string model does not cover. -/
theorem malformed_bbox_fallback (raw : String)
    (_hascii : raw.data.all (fun c => c.toNat ≤ 127))
    (hstart : (skipWs raw.data).head? ≠ some '[')
    (hspace : spaceParse raw = [0, 0, 1, 1])
    (lab : Option String) (ch : List Node) (rest : List HtmlDiv) (w h scale : ℤ) :
    parseBboxAttr (some raw) = [0, 0, 1, 1] ∧
    parse_layout (⟨lab, some raw, ch⟩ :: rest) w h scale =
      { bbox := normalizeBbox w h scale [0, 0, 1, 1], label := lab.getD "block",
        content := ch } :: parse_layout rest w h scale := by
  have hjson : jsonNumList raw = none := by
    unfold jsonNumList
    split
    · rename_i rest' heq
      exact absurd (by rw [heq]; rfl) hstart
    · rfl
  have hp : parseBboxAttr (some raw) = [0, 0, 1, 1] := by
    by_cases hraw : raw = ""
    · simp [parseBboxAttr, hraw]
    · simp [parseBboxAttr, hraw, hjson, hspace]
  exact ⟨hp, by simp [parse_layout, blockOfDiv, hp]⟩

/-- C5 witness for the amended statement, at the input "abc" with bitmap size
= BBOX_SCALE = 1000, where the stored bbox is exactly [0, 0, 1, 1]. -/
theorem malformed_bbox_fallback_witness :
    parseBboxAttr (some "abc") = [0, 0, 1, 1] ∧
    parse_layout [⟨none, some "abc", []⟩] 1000 1000 1000 =
      { bbox := normalizeBbox 1000 1000 1000 [0, 0, 1, 1], label := "block",
        content := ([] : List Node) } :: parse_layout [] 1000 1000 1000 :=
  malformed_bbox_fallback "abc" (by decide) (by decide) (by decide)
    none [] [] 1000 1000 1000

/-- C10: every block produced by `parse_layout` has a bbox whose first corner
is at least 0 in both coordinates and whose second corner is at most the
bitmap width/height; the clamping is one-sided per corner, witnessed by a
negative raw second corner surviving as a negative pixel coordinate and a
first corner beyond the bitmap surviving uncapped. -/
theorem normalized_bbox_bounds :
    (∀ (divs : List HtmlDiv) (w h scale : ℤ) (i : ℕ) (b : LayoutBlock),
      (parse_layout divs w h scale)[i]? = some b →
      0 ≤ b.bbox.getD 0 0 ∧ 0 ≤ b.bbox.getD 1 0 ∧
        b.bbox.getD 2 0 ≤ w ∧ b.bbox.getD 3 0 ≤ h) ∧
    (parse_layout [⟨none, some "[0, 0, -5, -5]", []⟩] 1000 1000 1000).map
        (fun b => b.bbox) = [[0, 0, -5, -5]] ∧
    (parse_layout [⟨none, some "[2000, 2000, 1, 1]", []⟩] 1000 1000 1000).map
        (fun b => b.bbox) = [[2000, 2000, 1, 1]] := by
  refine ⟨?_, by decide, by decide⟩
  intro divs w h scale i b hget
  rw [parse_layout_getElem?] at hget
  obtain ⟨d, hd, rfl⟩ := Option.map_eq_some'.mp hget
  simp only [blockOfDiv, normalizeBbox, List.getD_cons_zero, List.getD_cons_succ]
  refine ⟨le_max_left _ _, le_max_left _ _, min_le_right _ _, min_le_right _ _⟩

/-- C10 witness: the bounds at a concrete block of a concrete document. -/
theorem normalized_bbox_bounds_witness :
    0 ≤ ([0, 0, -5, -5] : List ℤ).getD 0 0 ∧ 0 ≤ ([0, 0, -5, -5] : List ℤ).getD 1 0 ∧
      ([0, 0, -5, -5] : List ℤ).getD 2 0 ≤ 1000 ∧
      ([0, 0, -5, -5] : List ℤ).getD 3 0 ≤ 1000 :=
  normalized_bbox_bounds.1 [⟨none, some "[0, 0, -5, -5]", []⟩] 1000 1000 1000 0
    ⟨[0, 0, -5, -5], "block", []⟩ (by rfl)

/-- C6: with the delimiters `parse_markdown` configures, `convert_math` wraps
the trimmed text in the block delimiters with surrounding newlines when the
element carries the block-level `display` marker, and in the inline
delimiters with surrounding spaces otherwise; with inner text x^2 this gives
exactly "\n$$x^2$$\n" and " $x^2$ ". -/
theorem convert_math_delimiters (attrs : List (String × String)) (text : String) :
    (lookupAttr attrs "display" = some "block" →
      convert_math chandra_inline_math_delims chandra_block_math_delims attrs text =
        "\n" ++ "$$" ++ pyStrip text ++ "$$" ++ "\n") ∧
    (lookupAttr attrs "display" ≠ some "block" →
      convert_math chandra_inline_math_delims chandra_block_math_delims attrs text =
        " " ++ "$" ++ pyStrip text ++ "$" ++ " ") ∧
    convert_math chandra_inline_math_delims chandra_block_math_delims
        [("display", "block")] "x^2" = "\n$$x^2$$\n" ∧
    convert_math chandra_inline_math_delims chandra_block_math_delims [] "x^2" =
      " $x^2$ " := by
  refine ⟨?_, ?_, by decide, by decide⟩
  · intro hd
    simp [convert_math, hd, chandra_block_math_delims]
  · intro hd
    have hb : (lookupAttr attrs "display" == some "block") = false := by
      simpa using hd
    simp [convert_math, hb, chandra_inline_math_delims]

/-- C6 witness: both general cases applied at the concrete x^2 inputs. -/
theorem convert_math_delimiters_witness :
    convert_math chandra_inline_math_delims chandra_block_math_delims
        [("display", "block")] "x^2" = "\n" ++ "$$" ++ pyStrip "x^2" ++ "$$" ++ "\n" ∧
    convert_math chandra_inline_math_delims chandra_block_math_delims [] "x^2" =
      " " ++ "$" ++ pyStrip "x^2" ++ "$" ++ " " :=
  ⟨(convert_math_delimiters [("display", "block")] "x^2").1 (by decide),
   (convert_math_delimiters [] "x^2").2.1 (by decide)⟩

/-- C9: when the markdownify conversion raises, `parse_markdown` returns the
empty string instead of propagating; and on every input the returned Markdown
is trimmed of leading and trailing whitespace (stripping it again changes
nothing). -/
theorem parse_markdown_error_fallback_trimmed :
    (∀ (convert : String → Except String String) (hash : String → String)
       (html : String) (divs : List HtmlDiv) (ihf iim : Bool) (err : String),
      convert (parse_html hash html divs ihf iim) = Except.error err →
      parse_markdown convert hash html divs ihf iim = "") ∧
    (∀ (convert : String → Except String String) (hash : String → String)
       (html : String) (divs : List HtmlDiv) (ihf iim : Bool),
      pyStrip (parse_markdown convert hash html divs ihf iim) =
        parse_markdown convert hash html divs ihf iim) := by
  constructor
  · intro convert hash html divs ihf iim err herr
    simp [parse_markdown, herr]
    decide
  · intro convert hash html divs ihf iim
    simp only [parse_markdown]
    exact pyStrip_idem _

/-- C9 witness: a failing converter yields "", and the output of a converter
returning padded text is already stripped. -/
theorem parse_markdown_error_fallback_trimmed_witness :
    parse_markdown (fun _ => Except.error "boom") (fun _ => "H") "" [] false true = "" ∧
    pyStrip (parse_markdown (fun _ => Except.ok "  hi  ") (fun _ => "H") "" [] false true) =
      parse_markdown (fun _ => Except.ok "  hi  ") (fun _ => "H") "" [] false true :=
  ⟨parse_markdown_error_fallback_trimmed.1 (fun _ => Except.error "boom") (fun _ => "H")
      "" [] false true "boom" rfl,
   parse_markdown_error_fallback_trimmed.2 (fun _ => Except.ok "  hi  ") (fun _ => "H")
      "" [] false true⟩

/-- C7: every top-level element labeled Page-Header or Page-Footer is skipped
entirely when includeHeadersFooters is false; the output is the concatenation
of the surviving blocks' inner HTML in document order; and on a
[Page-Header, Text] document the output is exactly the Text block's
serialized inner content. -/
theorem headers_footers_skipped :
    (∀ (hash : String → String) (html : String) (iim : Bool) (idx : ℕ) (d : HtmlDiv),
      (d.label = some "Page-Header" ∨ d.label = some "Page-Footer") →
      processDiv hash html false iim idx d = none) ∧
    (∀ (hash : String → String) (html : String) (ihf iim : Bool) (divs : List HtmlDiv),
      parse_html hash html divs ihf iim =
        concatStr ((divs.enumFrom 0).map
          (fun p => (processDiv hash html ihf iim (p.1 + 1) p.2).getD ""))) ∧
    (∀ (hash : String → String) (html : String),
      parse_html hash html
        [⟨some "Page-Header", some "[0, 0, 100, 100]", [Node.text "HEAD"]⟩,
         ⟨some "Text", some "[0, 100, 100, 200]", [Node.elem "p" [] [Node.text "Hello"]]⟩]
        false true = "<p>Hello</p>") ∧
    serializeL [Node.elem "p" [] [Node.text "Hello"]] = "<p>Hello</p>" := by
  have e : serializeL [Node.elem "p" [] [Node.text "Hello"]] = "<p>Hello</p>" := by
    simp [serializeL, serializeAttrs, escChar]
  refine ⟨?_, ?_, ?_, e⟩
  · intro hash html iim idx d hd
    rcases hd with h | h <;> simp [processDiv, labelIn2, h]
  · intro hash html ihf iim divs
    simpa [parse_html] using parse_html_go_enumFrom hash html ihf iim divs 0
  · intro hash html
    have h1 : processDiv hash html false true 1
        ⟨some "Page-Header", some "[0, 0, 100, 100]", [Node.text "HEAD"]⟩ = none := by
      simp [processDiv, labelIn2]
    have hT : hasTag (pyStrip "<p>Hello</p>") = true := by decide
    have h2 : processDiv hash html false true 2
        ⟨some "Text", some "[0, 100, 100, 200]",
          [Node.elem "p" [] [Node.text "Hello"]]⟩ = some "<p>Hello</p>" := by
      simp [processDiv, labelIn2, e, hT]
    simp [parse_html, parse_html_go, h1, h2]

/-- C7 witness: the skip rule applied to a concrete Page-Header div, and the
round-trip applied to the concrete two-block document. -/
theorem headers_footers_skipped_witness :
    processDiv (fun _ => "H") "doc" false true 1 ⟨some "Page-Header", none, []⟩ = none ∧
    parse_html (fun _ => "H") "doc"
      [⟨some "Page-Header", some "[0, 0, 100, 100]", [Node.text "HEAD"]⟩,
       ⟨some "Text", some "[0, 100, 100, 200]", [Node.elem "p" [] [Node.text "Hello"]]⟩]
      false true = "<p>Hello</p>" :=
  ⟨headers_footers_skipped.1 (fun _ => "H") "doc" true 1 _ (Or.inl rfl),
   headers_footers_skipped.2.2.1 (fun _ => "H") "doc"⟩

/-- C8: a Text block whose inner content has no HTML tags gets its trimmed
text wrapped in a paragraph tag; concretely a bare-text block "Hello" rewrites
to "<p>Hello</p>", and Markdown conversion of the rewritten fragment yields
"Hello" with no literal tags. -/
theorem text_block_paragraph_wrap :
    (∀ (hash : String → String) (html : String) (ihf iim : Bool) (idx : ℕ) (d : HtmlDiv),
      d.label = some "Text" →
      hasTag (pyStrip (serializeL d.children)) = false →
      processDiv hash html ihf iim idx d =
        some ("<p>" ++ pyStrip (serializeL d.children) ++ "</p>")) ∧
    (∀ (hash : String → String) (html : String),
      parse_html hash html [⟨some "Text", none, [Node.text "Hello"]⟩] false true =
        "<p>Hello</p>") ∧
    (∀ (hash : String → String) (html : String),
      parse_markdown md_convert_base hash html [⟨some "Text", none, [Node.text "Hello"]⟩]
        false true = "Hello") := by
  have hph : ∀ (hash : String → String) (html : String),
      parse_html hash html [⟨some "Text", none, [Node.text "Hello"]⟩] false true =
        "<p>Hello</p>" := by
    intro hash html
    have e : serializeL [Node.text "Hello"] = "Hello" := by simp [serializeL, escChar]
    have hT : hasTag "Hello" = false := by decide
    have h1 : processDiv hash html false true 1 ⟨some "Text", none, [Node.text "Hello"]⟩ =
        some "<p>Hello</p>" := by
      have hs : pyStrip "Hello" = "Hello" := by decide
      simp [processDiv, labelIn2, e, hT, hs]
    simp [parse_html, parse_html_go, h1]
  refine ⟨?_, hph, ?_⟩
  · intro hash html ihf iim idx d hl hT
    simp [processDiv, labelIn2, hl, hT]
  · intro hash html
    simp only [parse_markdown, hph hash html]
    decide

/-- C8 witness: the wrap rule applied at the concrete bare-text block, plus
the concrete Markdown round-trip. -/
theorem text_block_paragraph_wrap_witness :
    processDiv (fun _ => "H") "doc" false true 1 ⟨some "Text", none, [Node.text "Hello"]⟩ =
      some ("<p>" ++ pyStrip (serializeL [Node.text "Hello"]) ++ "</p>") ∧
    parse_markdown md_convert_base (fun _ => "H") "doc"
      [⟨some "Text", none, [Node.text "Hello"]⟩] false true = "Hello" :=
  ⟨text_block_paragraph_wrap.1 (fun _ => "H") "doc" false true 1 _ rfl
      (by
        have e : serializeL [Node.text "Hello"] = "Hello" := by simp [serializeL, escChar]
        rw [e]; decide),
   text_block_paragraph_wrap.2.2 (fun _ => "H") "doc"⟩

/-- C1: for a block at 0-based list position i (1-based position i+1 counted
over ALL top-level blocks) labeled Image or Figure and containing an img tag,
the Rewriter writes `get_image_name html (i+1)` as the img's src — its output
for that block is the serialization of the rewritten children, whose first
img carries exactly that src — and the Image Extractor stores the crop of
that block under the same key, both names being the same pure function of the
document content and the position. -/
theorem image_name_rewriter_extractor_agree {Img : Type}
    (hash : String → String) (crop : List ℤ → Option Img)
    (html : String) (divs : List HtmlDiv) (w h scale : ℤ)
    (ihf : Bool) (i : ℕ) (d : HtmlDiv) (im : Img)
    (hget : divs[i]? = some d)
    (hlab : d.label = some "Image" ∨ d.label = some "Figure")
    (himg : (findImgL d.children).isSome)
    (hcrop : crop (normalizeBbox w h scale (parseBboxAttr d.bboxAttr)) = some im) :
    firstImgSrc (rewriteImageChildren (get_image_name hash html (i + 1)) d.children) =
      some (get_image_name hash html (i + 1)) ∧
    processDiv hash html ihf true (i + 1) d =
      some (serializeL
        (rewriteImageChildren (get_image_name hash html (i + 1)) d.children)) ∧
    (get_image_name hash html (i + 1), im) ∈
      extract_images hash crop html (parse_layout divs w h scale) := by
  refine ⟨firstImgSrc_rewrite _ _, ?_, ?_⟩
  · rcases hlab with hl | hl <;> simp [processDiv, labelIn2, hl]
  · have hc : (parse_layout divs w h scale)[i]? = some (blockOfDiv w h scale d) := by
      rw [parse_layout_getElem?, hget]; rfl
    have hlab' : (blockOfDiv w h scale d).label = "Image" ∨
        (blockOfDiv w h scale d).label = "Figure" := by
      rcases hlab with hl | hl <;> simp [blockOfDiv, hl]
    have himg' : (findImgL (blockOfDiv w h scale d).content).isSome := by
      simpa [blockOfDiv] using himg
    have hcrop' : crop (blockOfDiv w h scale d).bbox = some im := by
      simpa [blockOfDiv] using hcrop
    have hmem := extract_images_go_mem hash crop html (parse_layout divs w h scale) 0 i
      (blockOfDiv w h scale d) im hc hlab' himg' hcrop'
    simpa [extract_images] using hmem

/-- C1 witness: a one-block Image document with a present img tag, an identity
crop and a constant hash. -/
theorem image_name_rewriter_extractor_agree_witness :
    firstImgSrc (rewriteImageChildren (get_image_name (fun _ => "H") "doc" (0 + 1))
        [Node.img []]) = some (get_image_name (fun _ => "H") "doc" (0 + 1)) ∧
    processDiv (fun _ => "H") "doc" false true (0 + 1)
        ⟨some "Image", some "[0, 0, 10, 10]", [Node.img []]⟩ =
      some (serializeL
        (rewriteImageChildren (get_image_name (fun _ => "H") "doc" (0 + 1)) [Node.img []])) ∧
    (get_image_name (fun _ => "H") "doc" (0 + 1), ([0, 0, 10, 10] : List ℤ)) ∈
      extract_images (fun _ => "H") (fun b => some b) "doc"
        (parse_layout [⟨some "Image", some "[0, 0, 10, 10]", [Node.img []]⟩] 1000 1000 1000) :=
  image_name_rewriter_extractor_agree (fun _ => "H") (fun b => some b) "doc"
    [⟨some "Image", some "[0, 0, 10, 10]", [Node.img []]⟩] 1000 1000 1000 false 0
    ⟨some "Image", some "[0, 0, 10, 10]", [Node.img []]⟩ [0, 0, 10, 10]
    rfl (Or.inl rfl) (by simp [findImgL]) (by decide)

/-- C3 counterexample: a table block carrying a nested per-row bbox annotation
produces exactly the three-field record bbox/label/content — the nested
annotation survives only as the raw attribute string inside the content, not
as a pixel-space row list (which would be [20, 20, 180, 40] for this bitmap),
and the `LayoutBlock` record has no `table_row_bboxes` field to hold one. -/
theorem layout_block_no_table_row_bboxes_cex :
    parse_layout
        [⟨some "Table", some "[0, 0, 500, 500]",
          [Node.elem "div" [("data-bbox", "[10, 10, 90, 20]")] [Node.text "row"]]⟩]
        2000 2000 1000 =
      [{ bbox := [0, 0, 1000, 1000], label := "Table",
         content := [Node.elem "div" [("data-bbox", "[10, 10, 90, 20]")]
           [Node.text "row"]] }] := by
  rfl

/-- C3 amended: a block produced by `parse_layout` — from a table element with
nested per-row bbox annotations as from any other element — consists of
exactly the normalized outer bbox, the label and the raw inner content;
no table_row_bboxes field exists and no per-row boxes are extracted or
normalized. -/
theorem parse_layout_block_characterization (divs : List HtmlDiv) (w h scale : ℤ)
    (i : ℕ) (d : HtmlDiv) (hget : divs[i]? = some d) :
    (parse_layout divs w h scale)[i]? =
      some { bbox := normalizeBbox w h scale (parseBboxAttr d.bboxAttr),
             label := d.label.getD "block", content := d.children } := by
  rw [parse_layout_getElem?, hget]
  rfl

/-- C3 witness: the characterization applied at the concrete table block. -/
theorem parse_layout_block_characterization_witness :
    (parse_layout
        [⟨some "Table", some "[0, 0, 500, 500]",
          [Node.elem "div" [("data-bbox", "[10, 10, 90, 20]")] [Node.text "row"]]⟩]
        2000 2000 1000)[0]? =
      some { bbox := normalizeBbox 2000 2000 1000 (parseBboxAttr (some "[0, 0, 500, 500]")),
             label := "Table",
             content := [Node.elem "div" [("data-bbox", "[10, 10, 90, 20]")]
               [Node.text "row"]] } :=
  parse_layout_block_characterization
    [⟨some "Table", some "[0, 0, 500, 500]",
      [Node.elem "div" [("data-bbox", "[10, 10, 90, 20]")] [Node.text "row"]]⟩]
    2000 2000 1000 0
    ⟨some "Table", some "[0, 0, 500, 500]",
      [Node.elem "div" [("data-bbox", "[10, 10, 90, 20]")] [Node.text "row"]]⟩
    rfl
